import Mathlib

/-!
Verification development for the tiktorch training worker
(`src/tiktorch/trainy.py`).

The Python source is shallowly embedded: the mutable `collections.deque`
sample cache becomes a `List` together with an explicit `maxlen` argument,
the data/hparams/state queues become `List`s consumed from the front,
`mp.Event` flags become `Bool`s, and each code region that a claim talks
about becomes an executable Lean function transcribed from the source
lines named in its doc comment.
-/

namespace Trainy

/-- `collections.deque(maxlen := m).append x` on a deque currently holding
`c` (front of the list = oldest element): the new element goes to the
right, and elements are evicted from the left while the deque is over
capacity.  (`trainy.py` lines 188, 221, 294, 312 all append through this
primitive.) -/
def dequeAppend {α : Type} (maxlen : Nat) (c : List α) (x : α) : List α :=
  let c2 := c ++ [x]
  c2.drop (c2.length - maxlen)

theorem length_dequeAppend {α : Type} (maxlen : Nat) (c : List α) (x : α) :
    (dequeAppend maxlen c x).length = min (c.length + 1) maxlen := by
  simp [dequeAppend]
  omega

theorem length_dequeAppend_le {α : Type} (maxlen : Nat) (c : List α) (x : α) :
    (dequeAppend maxlen c x).length ≤ maxlen := by
  rw [length_dequeAppend]
  omega

theorem dequeAppend_ne_nil {α : Type} {maxlen : Nat} (h : 1 ≤ maxlen)
    (c : List α) (x : α) : dequeAppend maxlen c x ≠ [] := by
  have hl : (dequeAppend maxlen c x).length = min (c.length + 1) maxlen :=
    length_dequeAppend maxlen c x
  intro hnil
  rw [hnil] at hl
  simp at hl
  omega

/-- If the deque is strictly below capacity, appending does not evict:
this is the situation during cache top-up, where an element has just been
popped from the left before being pushed back on the right. -/
theorem dequeAppend_of_lt {α : Type} {maxlen : Nat} {c : List α}
    (h : c.length < maxlen) (x : α) : dequeAppend maxlen c x = c ++ [x] := by
  have : c.length + 1 - maxlen = 0 := by omega
  simp [dequeAppend, this]

/-- Result of the inner fill loop (`trainy.py` lines 276-295):
either the batch reached `batch_size` (`full`, carrying the batch, the
remaining data queue and the cache), or the data queue raised
`queue.Empty` (`exhausted`, carrying the partial batch and the cache), or
the process died (`crash`).  The `crash` case models the `NameError`
raised inside `_cache_keeping` when `use_cache_keeping` is true: that
function opens with `global data_cache`, but the module defines no
`data_cache` global (the cache is a local of `_train_process`), so its
first read of `data_cache` fails; see `cacheKeeping` below for the
faithful transcription. -/
inductive FillResult (α : Type) where
  | full : List α → List α → List α → FillResult α
  | exhausted : List α → List α → FillResult α
  | crash : FillResult α
  deriving DecidableEq, Repr

/-- The fill loop `while len(batch) < hparams.batch_size: data, labels =
data_queue.get(block=False); ...` (`trainy.py` lines 276-295).  With
`use_cache_keeping` false, each fetched sample is appended to the batch
and to the cache; with it true, the call into `_cache_keeping` raises
`NameError` (see `FillResult.crash`). -/
def fillLoop {α : Type} (dedup : Bool) (B maxlen : Nat) :
    List α → List α → List α → FillResult α
  | [], batch, cache =>
    if B ≤ batch.length then .full batch [] cache
    else .exhausted batch cache
  | x :: q, batch, cache =>
    if B ≤ batch.length then .full batch (x :: q) cache
    else if dedup then .crash
    else fillLoop dedup B maxlen q (batch ++ [x]) (dequeAppend maxlen cache x)

/-- Auxiliary recursion for the top-up loop: `need` counts how many
samples the batch still lacks (`batch_size - len(batch)`), which
decreases by one per loop pass since each pass appends exactly one sample
to the batch. -/
def topUpAux {α : Type} (maxlen : Nat) : Nat → List α → List α → List α × List α
  | 0, batch, cache => (batch, cache)
  | _ + 1, batch, [] => (batch, [])
  | need + 1, batch, x :: t =>
    topUpAux maxlen need (batch ++ [x]) (dequeAppend maxlen t x)

/-- The top-up loop `while len(data_cache) > 0 and len(batch) <
hparams.batch_size: data_sample = data_cache.popleft();
batch.append(data_sample); data_cache.append(data_sample)`
(`trainy.py` lines 309-312): the loop guard `len(batch) <
hparams.batch_size` is expressed through the decreasing counter
`B - len(batch)`. -/
def topUp {α : Type} (maxlen B : Nat) (batch cache : List α) : List α × List α :=
  topUpAux maxlen (B - batch.length) batch cache

/-- Outcome of one batch-assembly attempt (`trainy.py` lines 269-319):
`retry` is the `len(batch) == 0 and len(data_cache) == 0` branch
(sleep 0.1 and `continue`); `step` carries the batch handed to the
augmentation/forward/loss/backward/update code together with the
remaining queue and the cache; `fatal` is the `LOLWTF` branch that kills
both state servers and raises `RuntimeError`; `crash` propagates a crash
of the fill loop. -/
inductive AssembleOutcome (α : Type) where
  | retry : AssembleOutcome α
  | step : List α → List α → List α → AssembleOutcome α
  | fatal : List α → List α → AssembleOutcome α
  | crash : AssembleOutcome α
  deriving DecidableEq, Repr

/-- One batch-assembly attempt of the worker loop, starting from
`batch = []` (`trainy.py` line 258 and lines 269-319). -/
def assembleIteration {α : Type} (dedup : Bool) (B maxlen : Nat)
    (queue cache : List α) : AssembleOutcome α :=
  match fillLoop dedup B maxlen queue [] cache with
  | .full batch q c => .step batch q c
  | .crash => .crash
  | .exhausted batch c =>
    if batch.length = 0 ∧ c.length = 0 then .retry
    else if batch.length = B then .step batch [] c
    else if batch.length < B then
      let tc := topUp maxlen B batch c
      .step tc.1 [] tc.2
    else .fatal batch c

/-- The batch forwarded to the numeric step, if this iteration forwarded
one. -/
def deliveredBatch {α : Type} : AssembleOutcome α → Option (List α)
  | .step b _ _ => some b
  | _ => none

/-- Did this iteration hit the fatal branch (kill both state servers and
raise `RuntimeError`)? -/
def isFatal {α : Type} : AssembleOutcome α → Bool
  | .fatal _ _ => true
  | _ => false

/-- The cache as left behind by an assembly outcome (the worker's
`data_cache` after the iteration). -/
def outcomeCache {α : Type} (cache : List α) : AssembleOutcome α → List α
  | .retry => cache
  | .step _ _ c => c
  | .fatal _ c => c
  | .crash => cache

/-! Lemmas about the fill loop. -/

theorem fillLoop_full_length {α : Type} (dedup : Bool) (B maxlen : Nat) :
    ∀ (queue batch cache b q' c' : List α), batch.length ≤ B →
      fillLoop dedup B maxlen queue batch cache = FillResult.full b q' c' →
      b.length = B := by
  intro queue
  induction queue with
  | nil =>
    intro batch cache b q' c' hle heq
    rw [fillLoop] at heq
    by_cases hB : B ≤ batch.length
    · rw [if_pos hB] at heq
      obtain ⟨h1, h2, h3⟩ := FillResult.full.inj heq
      subst h1
      omega
    · rw [if_neg hB] at heq
      exact absurd heq (by simp)
  | cons x q ih =>
    intro batch cache b q' c' hle heq
    rw [fillLoop] at heq
    by_cases hB : B ≤ batch.length
    · rw [if_pos hB] at heq
      obtain ⟨h1, h2, h3⟩ := FillResult.full.inj heq
      subst h1
      omega
    · rw [if_neg hB] at heq
      by_cases hd : dedup = true
      · rw [if_pos hd] at heq
        exact absurd heq (by simp)
      · rw [if_neg hd] at heq
        refine ih _ _ b q' c' ?_ heq
        simp
        omega

theorem fillLoop_exhausted_length {α : Type} (dedup : Bool) (B maxlen : Nat) :
    ∀ (queue batch cache b c' : List α),
      fillLoop dedup B maxlen queue batch cache = FillResult.exhausted b c' →
      b.length < B := by
  intro queue
  induction queue with
  | nil =>
    intro batch cache b c' heq
    rw [fillLoop] at heq
    by_cases hB : B ≤ batch.length
    · rw [if_pos hB] at heq
      exact absurd heq (by simp)
    · rw [if_neg hB] at heq
      obtain ⟨h1, h2⟩ := FillResult.exhausted.inj heq
      subst h1
      omega
  | cons x q ih =>
    intro batch cache b c' heq
    rw [fillLoop] at heq
    by_cases hB : B ≤ batch.length
    · rw [if_pos hB] at heq
      exact absurd heq (by simp)
    · rw [if_neg hB] at heq
      by_cases hd : dedup = true
      · rw [if_pos hd] at heq
        exact absurd heq (by simp)
      · rw [if_neg hd] at heq
        exact ih _ _ b c' heq

/-- If the fill loop exhausts the queue, then either nothing was fetched
at all (batch and cache are exactly as passed in), or at least one sample
was appended to the cache, which is then non-empty (a deque with
`maxlen ≥ 1` is non-empty after an append). -/
theorem fillLoop_exhausted_cache {α : Type} (dedup : Bool) (B maxlen : Nat)
    (hm : 1 ≤ maxlen) :
    ∀ (queue batch cache b c' : List α),
      fillLoop dedup B maxlen queue batch cache = FillResult.exhausted b c' →
      (b = batch ∧ c' = cache) ∨ c' ≠ [] := by
  intro queue
  induction queue with
  | nil =>
    intro batch cache b c' heq
    rw [fillLoop] at heq
    by_cases hB : B ≤ batch.length
    · rw [if_pos hB] at heq
      exact absurd heq (by simp)
    · rw [if_neg hB] at heq
      obtain ⟨h1, h2⟩ := FillResult.exhausted.inj heq
      exact Or.inl ⟨h1.symm, h2.symm⟩
  | cons x q ih =>
    intro batch cache b c' heq
    rw [fillLoop] at heq
    by_cases hB : B ≤ batch.length
    · rw [if_pos hB] at heq
      exact absurd heq (by simp)
    · rw [if_neg hB] at heq
      by_cases hd : dedup = true
      · rw [if_pos hd] at heq
        exact absurd heq (by simp)
      · rw [if_neg hd] at heq
        rcases ih _ _ b c' heq with ⟨h1, h2⟩ | h
        · exact Or.inr (h2 ▸ dequeAppend_ne_nil hm cache x)
        · exact Or.inr h

/-- When the fill loop crashes nothing was delivered; otherwise the cache
it leaves behind stays within the deque capacity, provided it started
within capacity. -/
theorem fillLoop_cache_le {α : Type} (dedup : Bool) (B maxlen : Nat) :
    ∀ (queue batch cache : List α), cache.length ≤ maxlen →
      (∀ b q' c', fillLoop dedup B maxlen queue batch cache = FillResult.full b q' c' →
        c'.length ≤ maxlen) ∧
      (∀ b c', fillLoop dedup B maxlen queue batch cache = FillResult.exhausted b c' →
        c'.length ≤ maxlen) := by
  intro queue
  induction queue with
  | nil =>
    intro batch cache hc
    constructor
    · intro b q' c' heq
      rw [fillLoop] at heq
      by_cases hB : B ≤ batch.length
      · rw [if_pos hB] at heq
        obtain ⟨_, _, h3⟩ := FillResult.full.inj heq
        subst h3
        exact hc
      · rw [if_neg hB] at heq
        exact absurd heq (by simp)
    · intro b c' heq
      rw [fillLoop] at heq
      by_cases hB : B ≤ batch.length
      · rw [if_pos hB] at heq
        exact absurd heq (by simp)
      · rw [if_neg hB] at heq
        obtain ⟨_, h2⟩ := FillResult.exhausted.inj heq
        subst h2
        exact hc
  | cons x q ih =>
    intro batch cache hc
    constructor
    · intro b q' c' heq
      rw [fillLoop] at heq
      by_cases hB : B ≤ batch.length
      · rw [if_pos hB] at heq
        obtain ⟨_, _, h3⟩ := FillResult.full.inj heq
        subst h3
        exact hc
      · rw [if_neg hB] at heq
        by_cases hd : dedup = true
        · rw [if_pos hd] at heq
          exact absurd heq (by simp)
        · rw [if_neg hd] at heq
          exact (ih _ _ (length_dequeAppend_le maxlen cache x)).1 b q' c' heq
    · intro b c' heq
      rw [fillLoop] at heq
      by_cases hB : B ≤ batch.length
      · rw [if_pos hB] at heq
        exact absurd heq (by simp)
      · rw [if_neg hB] at heq
        by_cases hd : dedup = true
        · rw [if_pos hd] at heq
          exact absurd heq (by simp)
        · rw [if_neg hd] at heq
          exact (ih _ _ (length_dequeAppend_le maxlen cache x)).2 b c' heq

/-! Lemmas about the top-up loop. -/

/-- With a non-empty cache and `maxlen ≥ 1`, the top-up loop appends
exactly `need` samples to the batch: cycling an element (pop left, push
right) never empties the cache, so the loop can only stop once the batch
is full. -/
theorem topUpAux_length {α : Type} (maxlen : Nat) (hm : 1 ≤ maxlen) :
    ∀ (need : Nat) (batch cache : List α), cache ≠ [] →
      (topUpAux maxlen need batch cache).1.length = batch.length + need := by
  intro need
  induction need with
  | zero =>
    intro batch cache _
    rfl
  | succ n ih =>
    intro batch cache hc
    match cache with
    | [] => exact absurd rfl hc
    | x :: t =>
      rw [topUpAux]
      rw [ih (batch ++ [x]) (dequeAppend maxlen t x) (dequeAppend_ne_nil hm t x)]
      simp only [List.length_append, List.length_cons, List.length_nil]
      omega

theorem topUp_length {α : Type} (maxlen B : Nat) (hm : 1 ≤ maxlen) :
    ∀ (batch cache : List α), cache ≠ [] → batch.length ≤ B →
      (topUp maxlen B batch cache).1.length = B := by
  intro batch cache hc hle
  rw [topUp, topUpAux_length maxlen hm (B - batch.length) batch cache hc]
  omega

theorem topUpAux_cache_le {α : Type} (maxlen : Nat) :
    ∀ (need : Nat) (batch cache : List α), cache.length ≤ maxlen →
      (topUpAux maxlen need batch cache).2.length ≤ maxlen := by
  intro need
  induction need with
  | zero =>
    intro batch cache hc
    exact hc
  | succ n ih =>
    intro batch cache hc
    match cache with
    | [] => exact hc
    | x :: t =>
      rw [topUpAux]
      exact ih (batch ++ [x]) (dequeAppend maxlen t x) (length_dequeAppend_le maxlen t x)

theorem topUp_cache_le {α : Type} (maxlen B : Nat) :
    ∀ (batch cache : List α), cache.length ≤ maxlen →
      (topUp maxlen B batch cache).2.length ≤ maxlen := by
  intro batch cache hc
  exact topUpAux_cache_le maxlen (B - batch.length) batch cache hc

/-- Cycling the cache during top-up leaves its composition unchanged: the
final cache is a permutation (in fact a rotation) of the one the loop
started from. -/
theorem topUpAux_cache_perm {α : Type} (maxlen : Nat) :
    ∀ (need : Nat) (batch cache : List α), cache.length ≤ maxlen →
      ((topUpAux maxlen need batch cache).2).Perm cache := by
  intro need
  induction need with
  | zero =>
    intro batch cache _
    exact List.Perm.refl cache
  | succ n ih =>
    intro batch cache hc
    match cache with
    | [] => exact List.Perm.refl []
    | x :: t =>
      rw [topUpAux]
      have hlt : t.length < maxlen := by
        simp only [List.length_cons] at hc
        omega
      have heq : dequeAppend maxlen t x = t ++ [x] := dequeAppend_of_lt hlt x
      have h1 : ((topUpAux maxlen n (batch ++ [x]) (dequeAppend maxlen t x)).2).Perm
          (dequeAppend maxlen t x) := by
        refine ih (batch ++ [x]) (dequeAppend maxlen t x) ?_
        rw [heq]
        simp only [List.length_append, List.length_cons, List.length_nil]
        omega
      refine h1.trans ?_
      rw [heq]
      exact List.perm_append_singleton x t

/-- Each pass of the top-up loop pops the oldest cache entry and appends
it to the batch: the resulting batch is the original batch extended by
elements borrowed from the cache. -/
theorem topUpAux_batch_borrowed {α : Type} (maxlen : Nat) :
    ∀ (need : Nat) (batch cache : List α), cache.length ≤ maxlen →
      ∃ borrowed, (topUpAux maxlen need batch cache).1 = batch ++ borrowed ∧
        ∀ a ∈ borrowed, a ∈ cache := by
  intro need
  induction need with
  | zero =>
    intro batch cache _
    exact ⟨[], by simp [topUpAux], by simp⟩
  | succ n ih =>
    intro batch cache hc
    match cache with
    | [] => exact ⟨[], by simp [topUpAux], by simp⟩
    | x :: t =>
      rw [topUpAux]
      have hlt : t.length < maxlen := by
        simp only [List.length_cons] at hc
        omega
      have heq : dequeAppend maxlen t x = t ++ [x] := dequeAppend_of_lt hlt x
      have hlen : (dequeAppend maxlen t x).length ≤ maxlen :=
        length_dequeAppend_le maxlen t x
      obtain ⟨borrowed, h1, h2⟩ := ih (batch ++ [x]) (dequeAppend maxlen t x) hlen
      refine ⟨x :: borrowed, ?_, ?_⟩
      · rw [h1]
        simp
      · intro a ha
        rcases List.mem_cons.mp ha with rfl | ha
        · exact List.mem_cons_self a t
        · have := h2 a ha
          rw [heq] at this
          rcases List.mem_append.mp this with h | h
          · exact List.mem_cons_of_mem x h
          · simp only [List.mem_singleton] at h
            subst h
            exact List.mem_cons_self a t

/-! Lemmas about one batch-assembly attempt. -/

/-- Helper shared by several claims: with a cache capacity of at least 1,
every batch an assembly iteration forwards to the numeric step has
exactly `batch_size` elements. -/
theorem assemble_delivered_length {α : Type} {dedup : Bool} {B maxlen : Nat}
    {queue cache b : List α} (hm : 1 ≤ maxlen)
    (hd : deliveredBatch (assembleIteration dedup B maxlen queue cache) = some b) :
    b.length = B := by
  unfold assembleIteration at hd
  cases heq : fillLoop dedup B maxlen queue [] cache with
  | full b0 q' c' =>
    rw [heq] at hd
    simp [deliveredBatch] at hd
    subst hd
    exact fillLoop_full_length dedup B maxlen queue [] cache b0 q' c' (by simp) heq
  | crash =>
    rw [heq] at hd
    simp [deliveredBatch] at hd
  | exhausted b0 c' =>
    rw [heq] at hd
    have hlt : b0.length < B := fillLoop_exhausted_length dedup B maxlen queue [] cache b0 c' heq
    by_cases h0 : b0.length = 0 ∧ c'.length = 0
    · simp [h0, deliveredBatch] at hd
    · simp only [h0, if_false] at hd
      have hne : b0.length ≠ B := by omega
      simp only [hne, if_false, hlt, if_true, deliveredBatch] at hd
      have hc' : c' ≠ [] := by
        rcases fillLoop_exhausted_cache dedup B maxlen hm queue [] cache b0 c' heq with ⟨h1, _⟩ | h
        · intro hnil
          apply h0
          constructor
          · rw [h1]; rfl
          · rw [hnil]; rfl
        · exact h
      have hlen := topUp_length maxlen B hm b0 c' hc' (le_of_lt hlt)
      rw [Option.some.injEq] at hd
      rw [← hd]
      exact hlen

/-- Helper: the fatal branch (kill both state servers, raise
`RuntimeError`) is unreachable: it requires the exhausted batch to exceed
`batch_size`, but the fill loop never overfills a batch. -/
theorem assemble_not_fatal {α : Type} (dedup : Bool) (B maxlen : Nat)
    (queue cache : List α) :
    isFatal (assembleIteration dedup B maxlen queue cache) = false := by
  unfold assembleIteration
  cases heq : fillLoop dedup B maxlen queue [] cache with
  | full b0 q' c' => rfl
  | crash => rfl
  | exhausted b0 c' =>
    have hlt : b0.length < B := fillLoop_exhausted_length dedup B maxlen queue [] cache b0 c' heq
    have hne : b0.length ≠ B := by omega
    dsimp only
    by_cases h0 : b0.length = 0 ∧ c'.length = 0
    · rw [if_pos h0]
      rfl
    · rw [if_neg h0, if_neg hne, if_pos hlt]
      rfl

/-! Claim C2: batch size of delivered batches. -/

/-- C2, counterexample to the claim as stated: with `cache_size = 0`
(so the deque `data_cache` can never hold anything), `batch_size = 2` and
a single pushed sample, the assembly iteration forwards a batch of length
1 to the numeric step: the exhausted-queue handler falls into the
`len(batch) < hparams.batch_size` branch, the top-up loop has nothing to
borrow, and the short batch falls through to the update code
(`trainy.py` lines 306-321). -/
theorem C2_counterexample_short_batch :
    deliveredBatch (assembleIteration false 2 0 [(0 : Nat)] []) = some [0] ∧
    ([0] : List Nat).length ≠ 2 := by
  decide

/-- C2 (amended: requires `cache_size ≥ 1`): for every pushed-sample
queue, cache contents, dedup setting and configured `batch_size = B`,
if the worker's assembly iteration forwards a batch to the
augmentation/forward/loss/backward/update step, that batch has exactly
`B` elements: an iteration with no full batch available either backs off
and retries or tops the batch up from the cache until it reaches `B`. -/
theorem C2_batch_exactly_B (α : Type) (dedup : Bool) (B maxlen : Nat)
    (queue cache b : List α) (hm : 1 ≤ maxlen)
    (hd : deliveredBatch (assembleIteration dedup B maxlen queue cache) = some b) :
    b.length = B :=
  assemble_delivered_length hm hd

/-- C2, witness: the amended theorem evaluated on the spec's end-to-end
scenario (`batch_size = 2`, `cache_size = 10`, three pushed samples). -/
theorem C2_witness :
    ((1 : Nat) ≤ 10 ∧
      deliveredBatch (assembleIteration false 2 10 [0, 1, 2] ([] : List Nat)) = some [0, 1]) ∧
    ([0, 1] : List Nat).length = 2 :=
  ⟨⟨by decide, by decide⟩,
    C2_batch_exactly_B Nat false 2 10 [0, 1, 2] [] [0, 1] (by decide) (by decide)⟩

/-! Claim C7: behaviour on a partially filled batch with an empty cache. -/

/-- C7, counterexample to the claim as stated: after source exhaustion
with a partially filled batch (one sample, `batch_size = 2`) and an empty
cache (`cache_size = 0`), the worker does NOT treat the situation as a
fatal logic error: no `RuntimeError` branch is taken, and the short batch
is forwarded to the numeric step. -/
theorem C7_counterexample_no_raise :
    isFatal (assembleIteration false 2 0 [(0 : Nat)] []) = false ∧
    deliveredBatch (assembleIteration false 2 0 [(0 : Nat)] []) = some [0] := by
  decide

/-- C7 (amended): the fatal branch (`LOLWTF` log, kill both state
servers, raise `RuntimeError`, `trainy.py` lines 313-319) fires only when
the assembled batch EXCEEDS `batch_size`, which never happens, so it is
unreachable for every input; and when the batch is partially filled while
the cache is empty, the worker instead forwards the short batch to the
numeric step. -/
theorem C7_fatal_unreachable :
    (∀ (α : Type) (dedup : Bool) (B maxlen : Nat) (queue cache : List α),
        isFatal (assembleIteration dedup B maxlen queue cache) = false) ∧
    (∀ (α : Type) (dedup : Bool) (B maxlen : Nat) (queue cache b : List α),
        fillLoop dedup B maxlen queue [] cache = FillResult.exhausted b [] →
        b ≠ [] → b.length < B →
        assembleIteration dedup B maxlen queue cache = AssembleOutcome.step b [] []) := by
  constructor
  · intro α dedup B maxlen queue cache
    exact assemble_not_fatal dedup B maxlen queue cache
  · intro α dedup B maxlen queue cache b hf hb hlt
    unfold assembleIteration
    rw [hf]
    dsimp only
    have h0 : ¬ (b.length = 0 ∧ ([] : List α).length = 0) := by
      intro hand
      exact hb (List.length_eq_zero.mp hand.1)
    have hne : b.length ≠ B := by omega
    rw [if_neg h0, if_neg hne, if_pos hlt]
    have htu : topUp maxlen B b ([] : List α) = (b, []) := by
      rw [topUp]
      cases hn : B - b.length with
      | zero => omega
      | succ k => rfl
    simp only [htu]

/-- C7, witness: the amended theorem applied at the concrete
partially-filled-batch, empty-cache input. -/
theorem C7_witness :
    isFatal (assembleIteration false 2 0 [(0 : Nat)] []) = false ∧
    assembleIteration false 2 0 [(0 : Nat)] [] = AssembleOutcome.step [0] [] [] :=
  ⟨C7_fatal_unreachable.1 Nat false 2 0 [0] [],
   C7_fatal_unreachable.2 Nat false 2 0 [0] [] [0] (by decide) (by decide) (by decide)⟩

/-! Claim C6: topping up a partial batch by cycling the cache. -/

/-- C6: when the live source is exhausted with a partially filled batch
and a non-empty cache, the batch is topped up by cyclically borrowing the
oldest cache entries: the final cache is a permutation of the original
(composition unchanged), the batch is the original batch extended by
entries borrowed from the cache, and on the spec's concrete scenario
(`batch_size = 2`, `cache_size = 10`, dedup disabled, samples `0,1,2`)
the first batch is `[0, 1]` and the next assembly yields batch `[2, 0]`
with cache rotated to `[1, 2, 0]`. -/
theorem C6_topup_cycles_cache :
    (∀ (α : Type) (m B : Nat) (batch cache : List α), cache.length ≤ m →
        ((topUp m B batch cache).2).Perm cache ∧
        ∃ borrowed, (topUp m B batch cache).1 = batch ++ borrowed ∧
          ∀ a ∈ borrowed, a ∈ cache) ∧
    assembleIteration false 2 10 [0, 1, 2] ([] : List Nat) =
      AssembleOutcome.step [0, 1] [2] [0, 1] ∧
    assembleIteration false 2 10 [2] [0, 1] =
      AssembleOutcome.step [2, 0] [] [1, 2, 0] := by
  refine ⟨?_, by decide, by decide⟩
  intro α m B batch cache hc
  exact ⟨topUpAux_cache_perm m (B - batch.length) batch cache hc,
    topUpAux_batch_borrowed m (B - batch.length) batch cache hc⟩

/-- C6, witness: the cycling property applied at the concrete scenario
(topping up batch `[2]` from cache `[0, 1, 2]`). -/
theorem C6_witness :
    ([0, 1, 2] : List Nat).length ≤ 10 ∧
    ((topUp 10 2 [2] [0, 1, 2]).2).Perm [0, 1, 2] :=
  ⟨by decide, (C6_topup_cycles_cache.1 Nat 10 2 [2] [0, 1, 2] (by decide)).1⟩

/-! The worker's mutable state across iterations: hyperparameters,
criterion, optimizer, the optimizer state-server thread, the iteration
counter, and the sample cache.  The cache is created once, before the
main loop, as `deque(maxlen=hparams.cache_size)` (`trainy.py` line 188);
its `maxlen` is therefore frozen at the initial `cache_size` and is kept
as a separate field `cacheMaxlen`, distinct from the current
`hparams.cache_size`. -/

/-- The Hyperparameters record (`trainy.py` lines 62-69): the fields the
worker loop reads. -/
structure Hyperparams where
  optimizer_name : String
  criterion_name : String
  batch_size : Nat
  cache_size : Nat
  deriving DecidableEq, Repr

/-- The optimizer as the worker sees it: its kind plus opaque internal
state, modelled as the number of `optim.step()` calls applied since it
was built (enough to express that rebuilding discards prior state). -/
structure Optimizer where
  optimizer_name : String
  internalSteps : Nat
  deriving DecidableEq, Repr

/-- `optim = getattr(torch.optim, hparams.optimizer_name)(model.parameters(),
**hparams.optimizer_kwargs)` (`trainy.py` lines 176, 236): a freshly
built optimizer with no accumulated internal state. -/
def freshOptimizer (h : Hyperparams) : Optimizer :=
  { optimizer_name := h.optimizer_name, internalSteps := 0 }

/-- The worker-loop state of `_train_process`. -/
structure TrainState (α : Type) where
  hparams : Hyperparams
  cacheMaxlen : Nat
  cache : List α
  criterion : String
  optim : Optimizer
  optimServerGen : Nat
  iterCount : Nat
  deriving DecidableEq, Repr

/-- Worker state right after start-up (`trainy.py` lines 174-188): the
initial Hyperparameters are received, criterion and optimizer are built
from them, the optimizer state-server thread (generation 0) is started,
and the cache deque is created with `maxlen = hparams.cache_size`. -/
def initTrainState (α : Type) (h : Hyperparams) : TrainState α :=
  { hparams := h, cacheMaxlen := h.cache_size, cache := [],
    criterion := h.criterion_name, optim := freshOptimizer h,
    optimServerGen := 0, iterCount := 0 }

/-- Primitive actions performed by the hyperparameter-change handler, in
source order. -/
inductive ReloadEvent where
  | clearFlag : ReloadEvent
  | getNowaitEmpty : ReloadEvent
  | killOptimServer : Nat → ReloadEvent
  | buildCriterion : String → ReloadEvent
  | buildOptimizer : String → ReloadEvent
  | startOptimServer : Nat → ReloadEvent
  deriving DecidableEq, Repr

/-- Result of the hyperparameter-change check. -/
structure ReloadResult (α : Type) where
  state : TrainState α
  flag : Bool
  hq : List Hyperparams
  events : List ReloadEvent
  deriving DecidableEq, Repr

/-- The `change_hparams` check at the top of each worker iteration
(`trainy.py` lines 228-246): if the flag is set it is cleared first; then
`hparams_queue.get_nowait()` either raises `queue.Empty` (no-op) or
yields a new record, in which case the optimizer state server is killed,
criterion and optimizer are rebuilt from the new record, and a new
optimizer state server is started.  The cache and its `maxlen` are not
touched. -/
def checkChangeHparams {α : Type} (s : TrainState α) (flagSet : Bool)
    (hq : List Hyperparams) : ReloadResult α :=
  if flagSet then
    match hq with
    | [] =>
      { state := s, flag := false, hq := [],
        events := [.clearFlag, .getNowaitEmpty] }
    | h :: rest =>
      { state := { s with hparams := h, criterion := h.criterion_name,
                          optim := freshOptimizer h,
                          optimServerGen := s.optimServerGen + 1 },
        flag := false, hq := rest,
        events := [.clearFlag, .killOptimServer s.optimServerGen,
                   .buildCriterion h.criterion_name,
                   .buildOptimizer h.optimizer_name,
                   .startOptimServer (s.optimServerGen + 1)] }
  else { state := s, flag := flagSet, hq := hq, events := [] }

/-- One observable step of the worker loop, as far as the cache and
hyperparameter machinery are concerned: a hyperparameter reload (with or
without a queued record) or a training iteration run against a given
data-queue content. -/
inductive WorkerEvent (α : Type) where
  | reload : Hyperparams → WorkerEvent α
  | reloadEmpty : WorkerEvent α
  | trainIter : List α → WorkerEvent α
  deriving DecidableEq, Repr

/-- Apply one worker-loop step to the worker state.  A `trainIter` runs
one batch-assembly attempt; on delivery the numeric step runs
(`iter_count += 1`, one `optim.step()`), on retry nothing changes, on the
fatal branch or a crash the process dies with the cache in its final
state. -/
def applyEvent {α : Type} (dedup : Bool) (s : TrainState α) :
    WorkerEvent α → TrainState α
  | .reload h => (checkChangeHparams s true [h]).state
  | .reloadEmpty => (checkChangeHparams s true []).state
  | .trainIter q =>
    match assembleIteration dedup s.hparams.batch_size s.cacheMaxlen q s.cache with
    | .retry => s
    | .step _ _ c =>
      { s with cache := c, iterCount := s.iterCount + 1,
               optim := { s.optim with internalSteps := s.optim.internalSteps + 1 } }
    | .fatal _ c => { s with cache := c }
    | .crash => s

/-- Run the worker loop over a sequence of steps. -/
def runWorker {α : Type} (dedup : Bool) (s : TrainState α)
    (evs : List (WorkerEvent α)) : TrainState α :=
  evs.foldl (applyEvent dedup) s

/-! Cache-invariant lemmas for the worker run. -/

theorem assemble_cache_le {α : Type} (dedup : Bool) (B maxlen : Nat)
    (queue cache : List α) (hc : cache.length ≤ maxlen) :
    (outcomeCache cache (assembleIteration dedup B maxlen queue cache)).length ≤ maxlen := by
  unfold assembleIteration
  cases heq : fillLoop dedup B maxlen queue [] cache with
  | full b q' c' =>
    exact (fillLoop_cache_le dedup B maxlen queue [] cache hc).1 b q' c' heq
  | crash => exact hc
  | exhausted b c' =>
    have hcle := (fillLoop_cache_le dedup B maxlen queue [] cache hc).2 b c' heq
    dsimp only
    by_cases h0 : b.length = 0 ∧ c'.length = 0
    · rw [if_pos h0]
      exact hc
    · rw [if_neg h0]
      by_cases hB : b.length = B
      · rw [if_pos hB]
        exact hcle
      · rw [if_neg hB]
        by_cases hlt : b.length < B
        · rw [if_pos hlt]
          exact topUp_cache_le maxlen B b c' hcle
        · rw [if_neg hlt]
          exact hcle

theorem applyEvent_cacheMaxlen {α : Type} (dedup : Bool) (s : TrainState α)
    (ev : WorkerEvent α) : (applyEvent dedup s ev).cacheMaxlen = s.cacheMaxlen := by
  cases ev with
  | reload h => rfl
  | reloadEmpty => rfl
  | trainIter q =>
    dsimp only [applyEvent]
    cases assembleIteration dedup s.hparams.batch_size s.cacheMaxlen q s.cache <;> rfl

theorem applyEvent_cache_le {α : Type} (dedup : Bool) (s : TrainState α)
    (ev : WorkerEvent α) (hc : s.cache.length ≤ s.cacheMaxlen) :
    (applyEvent dedup s ev).cache.length ≤ s.cacheMaxlen := by
  cases ev with
  | reload h => exact hc
  | reloadEmpty => exact hc
  | trainIter q =>
    have hout := assemble_cache_le dedup s.hparams.batch_size s.cacheMaxlen q s.cache hc
    dsimp only [applyEvent]
    cases ha : assembleIteration dedup s.hparams.batch_size s.cacheMaxlen q s.cache with
    | retry => exact hc
    | step b q' c =>
      rw [ha] at hout
      exact hout
    | fatal b c =>
      rw [ha] at hout
      exact hout
    | crash => exact hc

theorem runWorker_cache_invariant {α : Type} (dedup : Bool) :
    ∀ (evs : List (WorkerEvent α)) (s : TrainState α),
      s.cache.length ≤ s.cacheMaxlen →
      (runWorker dedup s evs).cacheMaxlen = s.cacheMaxlen ∧
      (runWorker dedup s evs).cache.length ≤ s.cacheMaxlen := by
  intro evs
  induction evs with
  | nil =>
    intro s hc
    exact ⟨rfl, hc⟩
  | cons ev evs ih =>
    intro s hc
    have h1 := applyEvent_cacheMaxlen dedup s ev
    have h2 := applyEvent_cache_le dedup s ev hc
    have hinv : (applyEvent dedup s ev).cache.length ≤ (applyEvent dedup s ev).cacheMaxlen := by
      rw [h1]
      exact h2
    have h3 := ih (applyEvent dedup s ev) hinv
    constructor
    · show (runWorker dedup (applyEvent dedup s ev) evs).cacheMaxlen = s.cacheMaxlen
      rw [h3.1, h1]
    · show (runWorker dedup (applyEvent dedup s ev) evs).cache.length ≤ s.cacheMaxlen
      rw [← h1]
      exact h3.2

/-! FIFO eviction: a fold of deque appends keeps only the most recent
`maxlen` elements. -/

theorem dequeAppend_eq {α : Type} (maxlen : Nat) (c : List α) (x : α) :
    dequeAppend maxlen c x = (c ++ [x]).drop ((c ++ [x]).length - maxlen) := rfl

theorem drop_append_drop {α : Type} (m : Nat) (l xs : List α) :
    (l.drop (l.length - m) ++ xs).drop ((l.drop (l.length - m) ++ xs).length - m) =
    (l ++ xs).drop ((l ++ xs).length - m) := by
  have h1 : (l ++ xs).drop (l.length - m) = l.drop (l.length - m) ++ xs := by
    rw [List.drop_append_eq_append_drop]
    have h0 : l.length - m - l.length = 0 := by omega
    rw [h0, List.drop_zero]
  rw [← h1, List.drop_drop]
  congr 1
  simp only [List.length_drop, List.length_append]
  omega

theorem dequeAppend_foldl_eq {α : Type} (maxlen : Nat) :
    ∀ (xs c : List α), c.length ≤ maxlen →
      xs.foldl (dequeAppend maxlen) c = (c ++ xs).drop ((c ++ xs).length - maxlen) := by
  intro xs
  induction xs with
  | nil =>
    intro c hc
    simp only [List.foldl_nil, List.append_nil]
    have h0 : c.length - maxlen = 0 := by omega
    rw [h0, List.drop_zero]
  | cons x xs ih =>
    intro c hc
    rw [List.foldl_cons, ih (dequeAppend maxlen c x) (length_dequeAppend_le maxlen c x)]
    rw [dequeAppend_eq]
    rw [drop_append_drop maxlen (c ++ [x]) xs]
    rw [List.append_assoc]
    rfl

theorem dequeAppend_foldl_mem {α : Type} (maxlen : Nat) (c xs : List α) (a : α)
    (hc : c.length ≤ maxlen) (hlen : maxlen ≤ xs.length)
    (hmem : a ∈ xs.foldl (dequeAppend maxlen) c) : a ∈ xs := by
  rw [dequeAppend_foldl_eq maxlen xs c hc] at hmem
  rw [List.drop_append_eq_append_drop] at hmem
  have hnil : c.drop ((c ++ xs).length - maxlen) = [] := by
    apply List.drop_eq_nil_of_le
    simp only [List.length_append]
    omega
  rw [hnil, List.nil_append] at hmem
  exact List.drop_subset _ _ hmem

/-! Claim C5: cache bound and FIFO eviction. -/

/-- Concrete hyperparameters for the C5 hot-reload run: the worker starts
with `cache_size = 2`. -/
def c5InitialHparams : Hyperparams :=
  { optimizer_name := "Adam", criterion_name := "BCEWithLogitsLoss",
    batch_size := 1, cache_size := 2 }

/-- Hot-reloaded hyperparameters shrinking `cache_size` to 1. -/
def c5NewHparams : Hyperparams :=
  { optimizer_name := "Adam", criterion_name := "BCEWithLogitsLoss",
    batch_size := 1, cache_size := 1 }

/-- A concrete worker run: two one-sample iterations, a hot-reload that
shrinks `cache_size` from 2 to 1, then another one-sample iteration. -/
def c5Run : TrainState Nat :=
  runWorker false (initTrainState Nat c5InitialHparams)
    [.trainIter [10], .trainIter [11], .reload c5NewHparams, .trainIter [12]]

/-- C5, counterexample to the claim as stated: after a hot-reload shrinks
`cache_size` from 2 to 1, the cache still holds 2 entries — the deque was
created once with `maxlen = 2` (`trainy.py` line 188) and the reload
handler (lines 228-246) never resizes it, so "the cache holds at most
cache_size entries, including after a hot-reload changes cache_size" is
false on the code. -/
theorem C5_counterexample_reload_overflow :
    c5Run.cache = [11, 12] ∧ c5Run.cache.length = 2 ∧
    c5Run.hparams.cache_size = 1 := by
  decide

/-- C5 (amended: the bound is the INITIAL `cache_size`, frozen into the
deque's `maxlen` at worker start; hot-reload does not resize the cache):
after every sequence of worker-loop operations (sample appends, top-up
cycling, hot-reloads) the cache holds at most `cacheMaxlen` entries and
`cacheMaxlen` never changes; moreover eviction is FIFO by arrival order:
a fold of deque appends keeps exactly the most recent `maxlen` elements
of the insertion stream, so after inserting more than `maxlen` samples
every cache member comes from the inserted stream and any
previously-cached sample distinct from them is gone. -/
theorem C5_cache_bounded_fifo :
    (∀ (α : Type) (dedup : Bool) (s : TrainState α) (evs : List (WorkerEvent α)),
        s.cache.length ≤ s.cacheMaxlen →
        (runWorker dedup s evs).cacheMaxlen = s.cacheMaxlen ∧
        (runWorker dedup s evs).cache.length ≤ s.cacheMaxlen) ∧
    (∀ (α : Type) (maxlen : Nat) (c xs : List α), c.length ≤ maxlen →
        xs.foldl (dequeAppend maxlen) c = (c ++ xs).drop ((c ++ xs).length - maxlen)) ∧
    (∀ (α : Type) (maxlen : Nat) (c xs : List α) (a : α), c.length ≤ maxlen →
        maxlen < xs.length → a ∉ xs → a ∉ xs.foldl (dequeAppend maxlen) c) := by
  refine ⟨?_, ?_, ?_⟩
  · intro α dedup s evs hc
    exact runWorker_cache_invariant dedup evs s hc
  · intro α maxlen c xs hc
    exact dequeAppend_foldl_eq maxlen xs c hc
  · intro α maxlen c xs a hc hlen ha hmem
    exact ha (dequeAppend_foldl_mem maxlen c xs a hc (le_of_lt hlen) hmem)

/-- C5, witness: the bound applied to the concrete hot-reload run and the
FIFO eviction applied to a concrete overfull insertion stream. -/
theorem C5_witness :
    ((initTrainState Nat c5InitialHparams).cache.length ≤
        (initTrainState Nat c5InitialHparams).cacheMaxlen ∧
      c5Run.cacheMaxlen = 2 ∧ c5Run.cache.length ≤ 2) ∧
    (([10, 11] : List Nat).length ≤ 2 ∧ 2 < ([12, 13, 14] : List Nat).length ∧
      (10 : Nat) ∉ [12, 13, 14] ∧
      (10 : Nat) ∉ [12, 13, 14].foldl (dequeAppend 2) [10, 11]) := by
  constructor
  · refine ⟨by decide, ?_⟩
    have h := C5_cache_bounded_fifo.1 Nat false (initTrainState Nat c5InitialHparams)
      [.trainIter [10], .trainIter [11], .reload c5NewHparams, .trainIter [12]] (by decide)
    exact h
  · refine ⟨by decide, by decide, by decide, ?_⟩
    exact C5_cache_bounded_fifo.2.2 Nat 2 [10, 11] [12, 13, 14] 10
      (by decide) (by decide) (by decide)

/-! Claim C8: hot-reload of hyperparameters. -/

/-- C8: when the `hyperparams-changed` flag is set, the worker clears it
and non-blockingly fetches a new record (no-op when none is queued); on a
fetch it kills the optimizer's state-server thread, rebuilds criterion
and optimizer from the new record (the rebuilt optimizer carries no prior
internal state), starts a new state-server generation for the rebuilt
optimizer, and the next batch assembly runs with the new `batch_size`:
with a cache capacity of at least 1 every batch it delivers has exactly
the new `batch_size` elements. -/
theorem C8_hot_reload (α : Type) (s : TrainState α) (h : Hyperparams)
    (rest : List Hyperparams) :
    ((checkChangeHparams s true (h :: rest)).state.hparams = h ∧
     (checkChangeHparams s true (h :: rest)).state.criterion = h.criterion_name ∧
     (checkChangeHparams s true (h :: rest)).state.optim = freshOptimizer h ∧
     (checkChangeHparams s true (h :: rest)).state.optim.internalSteps = 0 ∧
     (checkChangeHparams s true (h :: rest)).state.optimServerGen = s.optimServerGen + 1 ∧
     (checkChangeHparams s true (h :: rest)).flag = false ∧
     (checkChangeHparams s true (h :: rest)).hq = rest ∧
     (checkChangeHparams s true (h :: rest)).events =
       [ReloadEvent.clearFlag, ReloadEvent.killOptimServer s.optimServerGen,
        ReloadEvent.buildCriterion h.criterion_name,
        ReloadEvent.buildOptimizer h.optimizer_name,
        ReloadEvent.startOptimServer (s.optimServerGen + 1)]) ∧
    (checkChangeHparams s true [] =
      { state := s, flag := false, hq := [],
        events := [ReloadEvent.clearFlag, ReloadEvent.getNowaitEmpty] }) ∧
    (∀ (dedup : Bool) (queue b : List α),
        1 ≤ s.cacheMaxlen →
        deliveredBatch (assembleIteration dedup
          (checkChangeHparams s true (h :: rest)).state.hparams.batch_size
          (checkChangeHparams s true (h :: rest)).state.cacheMaxlen
          queue (checkChangeHparams s true (h :: rest)).state.cache) = some b →
        b.length = h.batch_size) := by
  refine ⟨⟨rfl, rfl, rfl, rfl, rfl, rfl, rfl, rfl⟩, rfl, ?_⟩
  intro dedup queue b hm hd
  exact assemble_delivered_length hm hd

/-- Hyperparameters the C8 witness starts from (`cache_size = 2`). -/
def c8OldHparams : Hyperparams :=
  { optimizer_name := "Adam", criterion_name := "BCEWithLogitsLoss",
    batch_size := 1, cache_size := 2 }

/-- Hyperparameters pushed by the C8 witness (`batch_size = 2`). -/
def c8NewHparams : Hyperparams :=
  { optimizer_name := "SGD", criterion_name := "MSELoss",
    batch_size := 2, cache_size := 3 }

/-- C8, witness: the hot-reload theorem applied at a concrete state and
record, with the delivered-batch clause instantiated on a concrete
two-sample queue. -/
theorem C8_witness :
    ((1 : Nat) ≤ (initTrainState Nat c8OldHparams).cacheMaxlen ∧
      deliveredBatch (assembleIteration false
        (checkChangeHparams (initTrainState Nat c8OldHparams) true
          [c8NewHparams]).state.hparams.batch_size
        (checkChangeHparams (initTrainState Nat c8OldHparams) true
          [c8NewHparams]).state.cacheMaxlen
        [5, 6]
        (checkChangeHparams (initTrainState Nat c8OldHparams) true
          [c8NewHparams]).state.cache) = some [5, 6]) ∧
    ([5, 6] : List Nat).length = c8NewHparams.batch_size := by
  refine ⟨⟨by decide, by decide⟩, ?_⟩
  exact (C8_hot_reload Nat (initTrainState Nat c8OldHparams) c8NewHparams []).2.2
    false [5, 6] [5, 6] (by decide) (by decide)

/-! Claim C3: the controller's state-pull operation
(`update_handler_model_state`, `trainy.py` lines 417-435). -/

/-- Timeout in seconds for the blocking mailbox read (`trainy.py`
line 28: `STATE_QUEUE_GET_TIMEOUT = 5`). -/
def STATE_QUEUE_GET_TIMEOUT : Nat := 5

/-- `_drain_state_queue` (`trainy.py` lines 397-415): `state = None`,
then `get_nowait` in a loop until `queue.Empty`, overwriting `state` each
time — so the LAST drained value (if any) is returned. -/
def drainStateQueue {σ : Type} : Option σ → List σ → Option σ
  | state, [] => state
  | _, x :: rest => drainStateQueue (some x) rest

/-- Primitive actions of the state-pull protocol, in the order the
controller performs them. -/
inductive PullEvent (σ : Type) where
  | drainGet : σ → PullEvent σ
  | setRequestFlag : PullEvent σ
  | blockingGet : Nat → Option σ → PullEvent σ
  | loadState : σ → PullEvent σ
  deriving DecidableEq, Repr

/-- `update_handler_model_state` (`trainy.py` lines 417-435): drain the
response mailbox into `state`, set the request flag, block on the mailbox
with the 5-second timeout (`response` is what that call returns, `none`
meaning `queue.Empty`), and finally `if state is not None:
self.model.load_state_dict(state)`.  Crucially, on timeout `state` still
holds the last value recovered by the drain, so a residual stale snapshot
gets loaded.  Returns the state held by the handler's model afterwards
(`held` being the state held before) together with the action trace. -/
def update_handler_model_state {σ : Type} (held : σ) (mailbox : List σ)
    (response : Option σ) : σ × List (PullEvent σ) :=
  let drained := drainStateQueue none mailbox
  let state := match response with
    | some s => some s
    | none => drained
  let evs := mailbox.map PullEvent.drainGet ++
    [PullEvent.setRequestFlag, PullEvent.blockingGet STATE_QUEUE_GET_TIMEOUT response]
  match state with
  | some s => (s, evs ++ [PullEvent.loadState s])
  | none => (held, evs)

/-- Modelled from the claim's words, for comparison with the code: "on
timeout the previously-held state is kept unchanged ..., and on success
the held state is atomically replaced by the received snapshot". -/
def pullStateSpec {σ : Type} (held : σ) (response : Option σ) : σ :=
  match response with
  | some s => s
  | none => held

/-- C3, counterexample to the claim as stated: with a stale snapshot `7`
sitting in the response mailbox and the blocking read timing out, the
code loads the stale drained value `7` into the model, whereas the claim
requires the previously-held state `0` to be kept unchanged. -/
theorem C3_counterexample_stale_on_timeout :
    (update_handler_model_state (0 : Nat) [7] none).1 = 7 ∧
    pullStateSpec (0 : Nat) (none : Option Nat) = 0 ∧ (7 : Nat) ≠ 0 := by
  decide

/-- C3 (amended): the pull protocol runs in the claimed order — drain
every stale value, set the request flag, block with the fixed 5-second
timeout — and on success the held state is replaced by the received
snapshot; but on timeout the held state is kept unchanged ONLY when the
drain recovered nothing: a residual stale snapshot recovered by the drain
is loaded as if it were fresh. -/
theorem C3_pull_state (σ : Type) (held : σ) (mailbox : List σ)
    (response : Option σ) :
    ((update_handler_model_state held mailbox response).2 =
      mailbox.map PullEvent.drainGet ++
      [PullEvent.setRequestFlag,
       PullEvent.blockingGet STATE_QUEUE_GET_TIMEOUT response] ++
      (match response.orElse (fun _ => drainStateQueue none mailbox) with
       | some s => [PullEvent.loadState s]
       | none => []) ∧
     STATE_QUEUE_GET_TIMEOUT = 5) ∧
    (∀ s, response = some s → (update_handler_model_state held mailbox response).1 = s) ∧
    (response = none →
      (update_handler_model_state held mailbox response).1 =
        (drainStateQueue none mailbox).getD held) := by
  refine ⟨⟨?_, rfl⟩, ?_, ?_⟩
  · cases response with
    | some s => simp [update_handler_model_state, Option.orElse]
    | none =>
      cases hd : drainStateQueue (none : Option σ) mailbox with
      | some s => simp [update_handler_model_state, Option.orElse, hd]
      | none => simp [update_handler_model_state, Option.orElse, hd]
  · intro s hs
    subst hs
    simp [update_handler_model_state]
  · intro hn
    subst hn
    cases hd : drainStateQueue (none : Option σ) mailbox with
    | some s => simp [update_handler_model_state, hd]
    | none => simp [update_handler_model_state, hd]

/-- C3, witness: the protocol theorem applied on a success pull (response
`9` replaces the held state) and on a timed-out pull (the drained
residual `7` is what ends up held). -/
theorem C3_witness :
    (update_handler_model_state (0 : Nat) [3, 7] (some 9)).1 = 9 ∧
    (update_handler_model_state (0 : Nat) [3, 7] none).1 = 7 := by
  constructor
  · exact (C3_pull_state Nat 0 [3, 7] (some 9)).2.1 9 rfl
  · have h := (C3_pull_state Nat 0 [3, 7] none).2.2 rfl
    rw [h]
    decide

/-! Claim C9: controller shutdown
(`shut_down_training_process`, `trainy.py` lines 451-464). -/

inductive LogLevel where
  | info : LogLevel
  | warning : LogLevel
  deriving DecidableEq, Repr

/-- The retry loop of `shut_down_training_process` (`trainy.py` lines
456-463): `for trial in range(6)`, each pass logs the attempt at info
level, then sleeps 10 seconds if the worker is still alive, or breaks
out.  `aliveAt k` is the liveness observed at the k-th check; the returned
pair is the log trace of the loop and the list of sleep durations. -/
def shutdownTrials (aliveAt : Nat → Bool) :
    Nat → Nat → List (LogLevel × String) × List Nat
  | _, 0 => ([], [])
  | trial, fuel + 1 =>
    if aliveAt trial then
      let rest := shutdownTrials aliveAt (trial + 1) fuel
      ((LogLevel.info, "Try") :: (LogLevel.info, "Process Alive.") :: rest.1,
       10 :: rest.2)
    else ([(LogLevel.info, "Try")], [])

/-- Observable outcome of `shut_down_training_process`. -/
structure ShutdownResult where
  abortSet : Bool
  logs : List (LogLevel × String)
  sleepsSeconds : List Nat
  forceTerminated : Bool
  deriving DecidableEq, Repr

/-- `shut_down_training_process` (`trainy.py` lines 451-464): when a
worker process exists, set the abort event, run the 6-trial poll loop,
and then — unconditionally, whether or not the worker died — log
`"Process Dead."` at info level.  The method contains no
`terminate()`/`kill()` call, so `forceTerminated` is always false. -/
def shut_down_training_process (processExists : Bool) (aliveAt : Nat → Bool) :
    ShutdownResult :=
  if processExists then
    let r := shutdownTrials aliveAt 0 6
    { abortSet := true,
      logs := r.1 ++ [(LogLevel.info, "Process Dead.")],
      sleepsSeconds := r.2,
      forceTerminated := false }
  else
    { abortSet := false, logs := [], sleepsSeconds := [], forceTerminated := false }

theorem shutdownTrials_info (aliveAt : Nat → Bool) :
    ∀ (fuel trial : Nat), ∀ e ∈ (shutdownTrials aliveAt trial fuel).1,
      e.1 = LogLevel.info := by
  intro fuel
  induction fuel with
  | zero =>
    intro trial e he
    simp [shutdownTrials] at he
  | succ f ih =>
    intro trial e he
    rw [shutdownTrials] at he
    by_cases ha : aliveAt trial = true
    · rw [if_pos ha] at he
      rcases List.mem_cons.mp he with he | he
      · rw [he]
      · rcases List.mem_cons.mp he with he | he
        · rw [he]
        · exact ih (trial + 1) e he
    · rw [if_neg ha] at he
      simp only [List.mem_singleton] at he
      rw [he]

theorem shutdownTrials_sleeps (aliveAt : Nat → Bool) :
    ∀ (fuel trial : Nat),
      (shutdownTrials aliveAt trial fuel).2.length ≤ fuel ∧
      ∀ t ∈ (shutdownTrials aliveAt trial fuel).2, t = 10 := by
  intro fuel
  induction fuel with
  | zero =>
    intro trial
    exact ⟨Nat.le_refl 0, by intro t ht; simp [shutdownTrials] at ht⟩
  | succ f ih =>
    intro trial
    rw [shutdownTrials]
    by_cases ha : aliveAt trial = true
    · rw [if_pos ha]
      constructor
      · simp only [List.length_cons]
        exact Nat.succ_le_succ (ih (trial + 1)).1
      · intro t ht
        rcases List.mem_cons.mp ht with ht | ht
        · exact ht
        · exact (ih (trial + 1)).2 t ht
    · rw [if_neg ha]
      exact ⟨Nat.zero_le _, by intro t ht; cases ht⟩

/-- C9, counterexample to the claim as stated: on a worker that never
dies, the retry loop exhausts its budget and the method still logs
`"Process Dead."` at info level; no warning is ever logged, although the
claim says a still-alive worker is logged as a warning. -/
theorem C9_counterexample_no_warning :
    (shut_down_training_process true (fun _ => true)).logs.filter
        (fun e => decide (e.1 = LogLevel.warning)) = [] ∧
    (shut_down_training_process true (fun _ => true)).logs.getLast? =
      some (LogLevel.info, "Process Dead.") := by
  decide

/-- C9 (amended): `shut_down_training_process` sets the abort event, then
polls worker liveness up to 6 trials with 10-second sleeps between
checks, never force-terminates, and — regardless of whether the worker
actually died — finishes by logging `"Process Dead."` at info level; no
warning is ever logged (in particular a worker that exits within one
retry produces no warning, as the claim says, but neither does one that
never exits). -/
theorem C9_shutdown (aliveAt : Nat → Bool) :
    (shut_down_training_process true aliveAt).abortSet = true ∧
    (shut_down_training_process true aliveAt).forceTerminated = false ∧
    (∀ e ∈ (shut_down_training_process true aliveAt).logs, e.1 = LogLevel.info) ∧
    (shut_down_training_process true aliveAt).logs.getLast? =
      some (LogLevel.info, "Process Dead.") ∧
    (shut_down_training_process true aliveAt).sleepsSeconds.length ≤ 6 ∧
    (∀ t ∈ (shut_down_training_process true aliveAt).sleepsSeconds, t = 10) := by
  refine ⟨rfl, rfl, ?_, ?_, ?_, ?_⟩
  · intro e he
    simp only [shut_down_training_process, if_pos] at he
    rcases List.mem_append.mp he with he | he
    · exact shutdownTrials_info aliveAt 6 0 e he
    · simp only [List.mem_singleton] at he
      rw [he]
  · simp only [shut_down_training_process, if_pos]
    exact List.getLast?_concat _
  · exact (shutdownTrials_sleeps aliveAt 6 0).1
  · exact (shutdownTrials_sleeps aliveAt 6 0).2

/-- C9, witness: the shutdown theorem applied to a worker that dies
before the first liveness check (no sleep happens, and the one concrete
log entry taken from the trace is at info level). -/
theorem C9_witness :
    (shut_down_training_process true (fun _ => false)).abortSet = true ∧
    ((LogLevel.info, "Try") ∈ (shut_down_training_process true (fun _ => false)).logs ∧
      ((LogLevel.info, "Try") : LogLevel × String).1 = LogLevel.info) := by
  refine ⟨(C9_shutdown (fun _ => false)).1, by decide, ?_⟩
  exact (C9_shutdown (fun _ => false)).2.2.1 (LogLevel.info, "Try") (by decide)

/-! Claims C4 and C10 involve Python failures: the dedup helper's
`NameError` and the state server's `TypeError`. -/

/-- Python errors raised by the embedded code regions. -/
inductive PyErr where
  | typeError : PyErr
  | nameError : PyErr
  | assertionError : PyErr
  deriving DecidableEq, Repr

/-! Claim C4: the `_cache_keeping` dedup policy
(`trainy.py` lines 191-223). -/

/-- A training sample: an (input, label) pair of tensors, modelled as
lists of rationals. -/
structure TSample where
  data : List ℚ
  labels : List ℚ
  deriving DecidableEq, Repr

/-- `x.sub(y).abs_().sum().item()` for same-shape tensors: the sum of
elementwise absolute differences. -/
def tensorDiff (a b : List ℚ) : ℚ :=
  (List.zipWith (fun x y => |x - y|) a b).sum

/-- The dedup tolerance `1e-5`. -/
def TOL : ℚ := 1 / 100000

/-- `_cache_keeping(sample)` (`trainy.py` lines 191-223).  Its first
statement is `global data_cache`, which makes every `data_cache`
reference inside the function refer to the MODULE-level name — not to the
`data_cache` local of `_train_process` created at line 188.  `g` is the
current content of that module-level binding (`none` = unbound, in which
case the very first read, `enumerate(data_cache)` at line 195, raises
`NameError`).  When the binding exists the body is transcribed as
written: entries whose input matches the sample within `1e-5` but whose
label does not set `update_batch`-suppressing or dirty-purging behaviour;
the rebuilt deque and the final append both use the current
`hparams.cache_size` as capacity. -/
def cacheKeeping (cache_size : Nat) (g : Option (List TSample)) (s : TSample) :
    Except PyErr (Bool × List TSample) :=
  match g with
  | none => Except.error PyErr.nameError
  | some data_cache =>
    let dirty := (data_cache.enum.filter (fun p =>
        decide (tensorDiff s.data p.2.data ≤ TOL) &&
        decide (TOL ≤ tensorDiff s.labels p.2.labels))).map (fun p => p.1)
    let update_batch := !(data_cache.any (fun cs =>
        decide (tensorDiff s.data cs.data ≤ TOL) &&
        decide (tensorDiff s.labels cs.labels < TOL)))
    let cache1 :=
      if dirty.isEmpty then data_cache
      else
        let rebuilt := (data_cache.enum.filter
          (fun p => !(dirty.contains p.1))).map (fun p => p.2)
        rebuilt.drop (rebuilt.length - cache_size)
    Except.ok (update_batch, dequeAppend cache_size cache1 s)

/-- The module-level binding that `global data_cache` refers to:
`trainy.py` defines no module global named `data_cache` (the only
module-level names are `logger` and `STATE_QUEUE_GET_TIMEOUT`; the cache
of line 188 is a local variable of `_train_process`), so the name is
unbound when the worker process starts. -/
def moduleGlobalDataCache : Option (List TSample) := none

/-- C4: with cache-keeping enabled, the first statement of
`_cache_keeping` that touches `data_cache` raises `NameError` for every
dequeued sample and every configured cache size, because `global
data_cache` names an unbound module-level variable: the dedup policy the
claim describes never executes. -/
theorem C4_cache_keeping_raises_name_error (cache_size : Nat) (s : TSample) :
    cacheKeeping cache_size moduleGlobalDataCache s = Except.error PyErr.nameError := rfl

/-! Claim C10: the `_state_server` threads die on their first statement
(`trainy.py` lines 92-115). -/

/-- The second argument of a Python `isinstance` call, as the embedded
regions need it: either a type or a module object — at the call site in
`_state_server` both arguments, `torch.optim` and `torch.nn`, are
modules. -/
inductive PyClassinfo where
  | pyType : String → PyClassinfo
  | pyModule : String → PyClassinfo
  deriving DecidableEq, Repr

/-- A Python object, identified by the name of its type. -/
structure PyObj where
  typeName : String
  deriving DecidableEq, Repr

/-- `isinstance(obj, classinfo)`: when `classinfo` is not a type (or a
tuple of types), CPython raises `TypeError: isinstance() arg 2 must be a
type or tuple of types`. -/
def pyIsinstance (obj : PyObj) (classinfo : PyClassinfo) : Except PyErr Bool :=
  match classinfo with
  | PyClassinfo.pyType n => Except.ok (decide (obj.typeName = n))
  | PyClassinfo.pyModule _ => Except.error PyErr.typeError

/-- The `torch.optim` module object. -/
def torch_optim : PyClassinfo := PyClassinfo.pyModule "torch.optim"

/-- The `torch.nn` module object. -/
def torch_nn : PyClassinfo := PyClassinfo.pyModule "torch.nn"

/-- The first statement of `_state_server` (`trainy.py` line 99):
`assert isinstance(state_obj, torch.optim) or isinstance(state_obj,
torch.nn)`, with Python's short-circuiting `or`. -/
def stateServerAssert (state_obj : PyObj) : Except PyErr Bool :=
  match pyIsinstance state_obj torch_optim with
  | Except.error e => Except.error e
  | Except.ok true => Except.ok true
  | Except.ok false => pyIsinstance state_obj torch_nn

/-- The polling loop of `_state_server` (`trainy.py` lines 100-115) over
its first `fuel` poll cycles: at cycle `k` the loop exits if the stop
flag is set; otherwise, if the request flag is set, it snapshots under
the lock and puts into the mailbox (the put is dropped when the
single-slot mailbox is full) and clears the request flag.  Returns the
snapshots put and the number of times the request flag was cleared. -/
def stateServerLoop {σ : Type} (snapshot : σ)
    (stopAt requestAt queueFullAt : Nat → Bool) : Nat → Nat → List σ × Nat
  | _, 0 => ([], 0)
  | k, fuel + 1 =>
    if stopAt k then ([], 0)
    else
      let put := if requestAt k && !(queueFullAt k) then [snapshot] else []
      let cleared := if requestAt k then 1 else 0
      let rest := stateServerLoop snapshot stopAt requestAt queueFullAt (k + 1) fuel
      (put ++ rest.1, cleared + rest.2)

/-- Observable outcome of a state-server thread. -/
structure ServerRun (σ : Type) where
  raised : Option PyErr
  puts : List σ
  requestsCleared : Nat
  deriving DecidableEq, Repr

/-- `_state_server` as a whole: the assert is evaluated first, and only
if it passes does the polling loop run. -/
def stateServer {σ : Type} (state_obj : PyObj) (snapshot : σ)
    (stopAt requestAt queueFullAt : Nat → Bool) (fuel : Nat) : ServerRun σ :=
  match stateServerAssert state_obj with
  | Except.error e => { raised := some e, puts := [], requestsCleared := 0 }
  | Except.ok true =>
    let l := stateServerLoop snapshot stopAt requestAt queueFullAt 0 fuel
    { raised := none, puts := l.1, requestsCleared := l.2 }
  | Except.ok false =>
    { raised := some PyErr.assertionError, puts := [], requestsCleared := 0 }

/-- Origin of a snapshot reaching the model-state mailbox. -/
inductive SnapshotOrigin where
  | dedicatedServer : SnapshotOrigin
  | workerFastPath : SnapshotOrigin
  deriving DecidableEq, Repr

/-- Everything that reaches the model-state mailbox: puts by the
dedicated server thread (`trainy.py` line 108) followed by puts by the
worker loop's fast path (line 253). -/
def modelStateMailbox {σ : Type} (serverRun : ServerRun σ)
    (fastPathPuts : List σ) : List (SnapshotOrigin × σ) :=
  serverRun.puts.map (fun s => (SnapshotOrigin.dedicatedServer, s)) ++
  fastPathPuts.map (fun s => (SnapshotOrigin.workerFastPath, s))

/-- The optimizer-state mailbox has a single producer, the optimizer's
dedicated server thread (`trainy.py` lines 181-184, 240-243): the worker
loop has no fast path for optimizer state. -/
def optimizerStateMailbox {σ : Type} (serverRun : ServerRun σ) : List σ :=
  serverRun.puts

/-- C10: both second arguments of the `isinstance` calls in
`_state_server`'s opening assert are modules, so the assert raises
`TypeError` on its first `isinstance` call for EVERY state object; the
server thread therefore dies before serving a single request, puts
nothing into its mailbox and never clears the request flag; consequently
every snapshot in the model-state mailbox originates from the worker
loop's fast path, and the optimizer-state mailbox stays empty (optimizer
state requests are never answered). -/
theorem C10_state_server_dies (σ : Type) (state_obj : PyObj) (snapshot : σ)
    (stopAt requestAt queueFullAt : Nat → Bool) (fuel : Nat)
    (fastPathPuts : List σ) :
    torch_optim = PyClassinfo.pyModule "torch.optim" ∧
    torch_nn = PyClassinfo.pyModule "torch.nn" ∧
    stateServerAssert state_obj = Except.error PyErr.typeError ∧
    (stateServer state_obj snapshot stopAt requestAt queueFullAt fuel).raised =
      some PyErr.typeError ∧
    (stateServer state_obj snapshot stopAt requestAt queueFullAt fuel).puts = [] ∧
    (stateServer state_obj snapshot stopAt requestAt queueFullAt fuel).requestsCleared = 0 ∧
    (modelStateMailbox (stateServer state_obj snapshot stopAt requestAt queueFullAt fuel)
        fastPathPuts).all (fun e => decide (e.1 = SnapshotOrigin.workerFastPath)) = true ∧
    optimizerStateMailbox
      (stateServer state_obj snapshot stopAt requestAt queueFullAt fuel) = [] := by
  refine ⟨rfl, rfl, rfl, rfl, rfl, rfl, ?_, rfl⟩
  show (modelStateMailbox { raised := some PyErr.typeError, puts := [], requestsCleared := 0 }
    fastPathPuts).all (fun e => decide (e.1 = SnapshotOrigin.workerFastPath)) = true
  simp only [modelStateMailbox, List.map_nil, List.nil_append, List.all_eq_true]
  intro e he
  rcases List.mem_map.mp he with ⟨s, _, hs⟩
  rw [← hs]
  rfl

/-! Claim C1: snapshot consistency against the in-place update.

The structural side first: which locks each code region holds, read off
the source. -/

/-- The two per-component locks created by `_train_process`:
`_state_lock` (line 164) and `_optim_state_lock` (line 178, recreated at
line 238 on hot-reload). -/
inductive Mutex where
  | state_lock : Mutex
  | optim_state_lock : Mutex
  deriving DecidableEq, Repr

/-- Locks held during the numeric mutation `optim.zero_grad();
loss.backward(); optim.step()` (`with _state_lock:` at `trainy.py` lines
341-347).  Note that BOTH the model parameters and the optimizer's
internal state are mutated here, under `_state_lock` alone. -/
def updateStepLocks : List Mutex := [Mutex.state_lock]

/-- Locks held by the dedicated model state server while snapshotting
(line 107, in the server instance created with `_state_lock` at lines
167-169). -/
def modelServerSnapshotLocks : List Mutex := [Mutex.state_lock]

/-- Locks held by the dedicated optimizer state server while
snapshotting (line 107, in the instance created with `_optim_state_lock`
at lines 181-184). -/
def optimServerSnapshotLocks : List Mutex := [Mutex.optim_state_lock]

/-- Locks held by the worker loop's fast path while snapshotting
(`trainy.py` lines 249-255: `state_queue.put_nowait(model.state_dict())`
with no `with` block around it). -/
def fastPathSnapshotLocks : List Mutex := []

/-- C1, counterexample to the claim as stated: the claimed mechanism —
"any snapshot-taking ... and the forward/backward/step mutation of that
same component are totally ordered by that component's mutex" — fails on
the code for two of the snapshot/mutation pairs: the worker loop's fast
path snapshots the model while holding NO lock at all, and the
optimizer's mutation (`optim.step()` under `_state_lock`) never holds the
optimizer's own mutex `_optim_state_lock`, so that mutex orders nothing
against it. -/
theorem C1_counterexample_mutex_not_total :
    fastPathSnapshotLocks = [] ∧
    fastPathSnapshotLocks.contains Mutex.state_lock = false ∧
    updateStepLocks.contains Mutex.optim_state_lock = false ∧
    optimServerSnapshotLocks = [Mutex.optim_state_lock] ∧
    updateStepLocks = [Mutex.state_lock] := by
  decide

/-! The semantic side: an interleaving machine for one component whose
server and updater share a mutex (the trainable unit and `_state_lock`),
plus the lock-free fast path running on the worker thread itself.

The component's state is modelled as two counters `lo`, `hi` that one
update increments in two separate atomic writes — a snapshot with
`lo ≠ hi` is exactly a torn (mid-step) snapshot.  The worker thread
(`wpc`) cycles acquire → write `lo` → write `hi` → release (lines
341-347); the server thread (`spc`) cycles acquire-on-request → read
`lo` into `tmp` → deliver `(tmp, hi)` → clear flag and release (lines
104-114); the fast path delivers `(lo, hi)` with no lock, but only when
the worker thread is at the top of its loop (`wpc = 0`), because it IS
the worker thread (lines 249-255). -/

/-- Instantaneous state of the two-thread system for one component.  The
lock `_state_lock` is encoded by `owner`: `0` = free, `1` = held by the
worker thread, `2` = held by the server thread. -/
structure SyncState where
  lo : Nat
  hi : Nat
  owner : Nat
  wpc : Nat
  spc : Nat
  tmp : Nat
  requestFlag : Bool
  delivered : List (Nat × Nat)
  deriving DecidableEq, Repr

/-- System state at worker start. -/
def initSyncState : SyncState :=
  { lo := 0, hi := 0, owner := 0, wpc := 0, spc := 0, tmp := 0,
    requestFlag := false, delivered := [] }

/-- One atomic step of the worker thread's update region (lines
341-347): acquire `_state_lock` (blocking while held), two separate
writes, release. -/
def workerStep (s : SyncState) : SyncState :=
  if s.wpc = 0 then
    (if s.owner = 0 then { s with owner := 1, wpc := 1 }
     else s)
  else if s.wpc = 1 then { s with lo := s.lo + 1, wpc := 2 }
  else if s.wpc = 2 then { s with hi := s.hi + 1, wpc := 3 }
  else { s with owner := 0, wpc := 0 }

/-- One atomic step of the dedicated server thread (lines 104-114):
acquire `_state_lock` when a request is pending, read the state (two
separate reads — `tmp` first, then `hi` at delivery), deliver, clear the
request flag, release. -/
def serverStep (s : SyncState) : SyncState :=
  if s.spc = 0 then
    (if s.requestFlag then
      (if s.owner = 0 then { s with owner := 2, spc := 1 }
       else s)
     else s)
  else if s.spc = 1 then { s with tmp := s.lo, spc := 2 }
  else if s.spc = 2 then { s with delivered := s.delivered ++ [(s.tmp, s.hi)], spc := 3 }
  else { s with owner := 0, requestFlag := false, spc := 0 }

/-- The worker loop's fast path (lines 249-255): executed by the worker
thread itself at the top of its loop, hence only possible when the
worker is between updates (`wpc = 0`); it clears the flag and delivers a
snapshot while holding no lock. -/
def fastPathStep (s : SyncState) : SyncState :=
  if s.wpc = 0 then
    { s with delivered := s.delivered ++ [(s.lo, s.hi)], requestFlag := false }
  else s

/-- A scheduling choice: which thread takes the next atomic step (or the
controller sets the request flag). -/
inductive SyncAction where
  | workerAct : SyncAction
  | serverAct : SyncAction
  | fastPathAct : SyncAction
  | setRequest : SyncAction
  deriving DecidableEq, Repr

def syncStep (s : SyncState) : SyncAction → SyncState
  | SyncAction.workerAct => workerStep s
  | SyncAction.serverAct => serverStep s
  | SyncAction.fastPathAct => fastPathStep s
  | SyncAction.setRequest => { s with requestFlag := true }

/-- Run the system under an arbitrary interleaving. -/
def syncRun (s : SyncState) (acts : List SyncAction) : SyncState :=
  acts.foldl syncStep s

/-- Control invariant of the machine: program counters in range, lock
discipline (a thread past its acquire holds the lock), and the phase
relation between `lo` and `hi`. -/
def CtrlInv (s : SyncState) : Prop :=
  s.wpc ≤ 3 ∧ s.spc ≤ 3 ∧
  (1 ≤ s.wpc → s.owner = 1) ∧
  (1 ≤ s.spc → s.owner = 2) ∧
  (s.wpc = 0 → s.lo = s.hi) ∧
  (s.wpc = 1 → s.lo = s.hi) ∧
  (s.wpc = 2 → s.lo = s.hi + 1) ∧
  (s.wpc = 3 → s.lo = s.hi) ∧
  (s.spc = 2 → s.tmp = s.hi)

/-- No torn snapshot has been handed out. -/
def DeliveredInv (s : SyncState) : Prop :=
  ∀ p ∈ s.delivered, p.1 = p.2

theorem ctrlInv_init : CtrlInv initSyncState := by
  refine ⟨?_, ?_, ?_, ?_, ?_, ?_, ?_, ?_, ?_⟩ <;> simp [initSyncState]

theorem syncStep_ctrlInv (s : SyncState) (a : SyncAction) (hinv : CtrlInv s) :
    CtrlInv (syncStep s a) := by
  obtain ⟨lo, hi, owner, wpc, spc, tmp, rq, dl⟩ := s
  simp only [CtrlInv] at hinv
  obtain ⟨h1, h2, h3, h4, h5, h6, h7, h8, h9⟩ := hinv
  cases a with
  | setRequest =>
    simp only [syncStep, CtrlInv]
    omega
  | fastPathAct =>
    simp only [syncStep, fastPathStep, CtrlInv]
    split_ifs with c1 <;>
      (try dsimp only) <;>
      omega
  | workerAct =>
    simp only [syncStep, workerStep, CtrlInv]
    split_ifs with c1 c2 c3 c4 <;>
      (try dsimp only) <;>
      first
      | omega
      | (simp only [false_implies, imp_false, true_and, and_true]; omega)
  | serverAct =>
    simp only [syncStep, serverStep, CtrlInv]
    split_ifs with c1 c2 c3 c4 c5 <;>
      (try dsimp only) <;>
      first
      | omega
      | (simp only [false_implies, imp_false, true_and, and_true]; omega)

theorem syncStep_deliveredInv (s : SyncState) (a : SyncAction)
    (hctrl : CtrlInv s) (hdel : DeliveredInv s) : DeliveredInv (syncStep s a) := by
  obtain ⟨h1, h2, h3, h4, h5, h6, h7, h8, h9⟩ := hctrl
  cases a with
  | setRequest => exact hdel
  | workerAct =>
    intro p hp
    refine hdel p ?_
    simp only [syncStep, workerStep] at hp
    split_ifs at hp <;> simpa using hp
  | fastPathAct =>
    intro p hp
    simp only [syncStep, fastPathStep] at hp
    split_ifs at hp with hw
    · simp only [] at hp
      rcases List.mem_append.mp hp with hp | hp
      · exact hdel p hp
      · simp only [List.mem_singleton] at hp
        rw [hp]
        exact h5 hw
    · exact hdel p hp
  | serverAct =>
    intro p hp
    simp only [syncStep, serverStep] at hp
    split_ifs at hp with hs0 hr ho hs1 hs2
    · exact hdel p (by simpa using hp)
    · exact hdel p hp
    · exact hdel p hp
    · exact hdel p (by simpa using hp)
    · simp only [] at hp
      rcases List.mem_append.mp hp with hp | hp
      · exact hdel p hp
      · simp only [List.mem_singleton] at hp
        rw [hp]
        exact h9 hs2
    · exact hdel p (by simpa using hp)

theorem syncRun_inv : ∀ (acts : List SyncAction) (s : SyncState),
    CtrlInv s → DeliveredInv s →
    CtrlInv (syncRun s acts) ∧ DeliveredInv (syncRun s acts) := by
  intro acts
  induction acts with
  | nil =>
    intro s hc hd
    exact ⟨hc, hd⟩
  | cons a acts ih =>
    intro s hc hd
    exact ih (syncStep s a) (syncStep_ctrlInv s a hc) (syncStep_deliveredInv s a hc hd)

/-- C1 (amended): for the trainable unit, whose dedicated state server
and numeric update share `_state_lock`, every interleaving of the server
thread, the worker thread and the loop-local fast path delivers only
consistent snapshots — the server snapshots under the mutex, while the
fast path is ordered against updates by program order on the worker
thread itself (it holds no mutex); and for the optimizer, whose mutation
is NOT protected by the optimizer's own mutex, its dedicated server dies
on its opening `isinstance` assert before delivering anything, so no
delivered snapshot of either component mixes pre- and post-update
values. -/
theorem C1_no_torn_snapshot (acts : List SyncAction) (p : Nat × Nat)
    (hp : p ∈ (syncRun initSyncState acts).delivered) :
    p.1 = p.2 ∧
    (∀ (σ : Type) (state_obj : PyObj) (snapshot : σ)
        (stopAt requestAt queueFullAt : Nat → Bool) (fuel : Nat),
      optimizerStateMailbox
        (stateServer state_obj snapshot stopAt requestAt queueFullAt fuel) = ([] : List σ)) := by
  constructor
  · exact (syncRun_inv acts initSyncState ctrlInv_init (by intro q hq; cases hq)).2 p hp
  · intro σ state_obj snapshot stopAt requestAt queueFullAt fuel
    rfl

/-- C1, witness: a concrete interleaving — request set, server acquires
and reads while the worker is blocked, then the worker runs a full
update, then a fast-path snapshot — delivering two snapshots, both
consistent. -/
theorem C1_witness :
    ((0, 0) : Nat × Nat) ∈ (syncRun initSyncState
      [SyncAction.setRequest, SyncAction.serverAct, SyncAction.workerAct,
       SyncAction.serverAct, SyncAction.serverAct, SyncAction.serverAct,
       SyncAction.workerAct, SyncAction.workerAct, SyncAction.workerAct,
       SyncAction.workerAct, SyncAction.fastPathAct]).delivered ∧
    (0 : Nat) = 0 :=
  ⟨by decide,
   (C1_no_torn_snapshot
      [SyncAction.setRequest, SyncAction.serverAct, SyncAction.workerAct,
       SyncAction.serverAct, SyncAction.serverAct, SyncAction.serverAct,
       SyncAction.workerAct, SyncAction.workerAct, SyncAction.workerAct,
       SyncAction.workerAct, SyncAction.fastPathAct] (0, 0) (by decide)).1⟩

end Trainy
